import Mathlib

/-!
Verification development for the SIIGO request-normalization and
response-shaping layer (`siigo_tools.py`, `main.py`, `siigo_agent.py`).

JSON values are embedded shallowly: numbers are rationals (the Python code
performs `float` arithmetic; the properties verified here are at the exact
arithmetic level), strings are Lean strings, objects are association lists
(Python `dict` preserves insertion order, and JSON object keys are unique).
-/

namespace Siigo

/-- Shallow embedding of a JSON value (Python `dict`/`list`/scalars). -/
inductive Json where
  | null : Json
  | bool (b : Bool) : Json
  | num (q : ℚ) : Json
  | str (s : String) : Json
  | arr (xs : List Json) : Json
  | obj (kvs : List (String × Json)) : Json
deriving Inhabited, Repr

/-- A Python dict with string keys, insertion-ordered. -/
abbrev Dict := List (String × Json)

/-- `d.get(k)`: first value bound to `k`, if any. -/
def dget (d : Dict) (k : String) : Option Json :=
  match d with
  | [] => none
  | (k', v) :: rest => if k' = k then some v else dget rest k

/-- `d.get(k, default)`. -/
def dgetD (d : Dict) (k : String) (v₀ : Json) : Json :=
  (dget d k).getD v₀

/-- `k in d`. -/
def dhas (d : Dict) (k : String) : Bool :=
  (dget d k).isSome

/-- `d[k] = v`: replace in place if the key exists, else append (Python
dict assignment semantics). -/
def dset (d : Dict) (k : String) (v : Json) : Dict :=
  match d with
  | [] => [(k, v)]
  | (k', v') :: rest =>
      if k' = k then (k, v) :: rest else (k', v') :: dset rest k v

/-- `d.pop(k, None)`: the removed value (if any) and the remaining dict. -/
def dpop (d : Dict) (k : String) : Option Json × Dict :=
  match d with
  | [] => (none, [])
  | (k', v) :: rest =>
      if k' = k then (some v, rest)
      else
        let (r, rest') := dpop rest k
        (r, (k', v) :: rest')

/-- Keys of a dict, in order. -/
def dkeys (d : Dict) : List String := d.map Prod.fst

/-- Python truthiness of a JSON value (`bool(x)`). -/
def pyTruthy : Json → Bool
  | .null => false
  | .bool b => b
  | .num q => q ≠ 0
  | .str s => s ≠ ""
  | .arr xs => !xs.isEmpty
  | .obj kvs => !kvs.isEmpty

/-- Python `str(x)` for JSON values.  Faithful on strings, `None` and
booleans (the only cases the verified properties exercise); numeric and
container renderings are an approximation of the Python `repr`. -/
def pyStr : Json → String
  | .null => "None"
  | .bool true => "True"
  | .bool false => "False"
  | .num q => toString q
  | .str s => s
  | .arr _ => "<list>"
  | .obj _ => "<dict>"

/-- Python `str.strip()` (structurally recursive; used instead of
`String.trim`, whose well-founded recursion the kernel cannot evaluate). -/
def pyStrip (s : String) : String :=
  ⟨((s.data.dropWhile Char.isWhitespace).reverse.dropWhile
      Char.isWhitespace).reverse⟩

/-- Python `str.lower()`. -/
def pyLower (s : String) : String := ⟨s.data.map Char.toLower⟩

/-- Whether a string contains a character (`c in s`). -/
def strContainsChar (s : String) (c : Char) : Bool := s.data.contains c

/-- Split a character list on a separator character, Python
`str.split(sep)` semantics for a one-character separator. -/
def splitOnChar (c : Char) (cs : List Char) : List (List Char) :=
  match cs with
  | [] => [[]]
  | x :: rest =>
      let r := splitOnChar c rest
      if x = c then [] :: r
      else
        match r with
        | [] => [[x]]
        | g :: gs => (x :: g) :: gs

/-- Python `s.split(sep)` for a one-character separator. -/
def strSplitOnChar (c : Char) (s : String) : List String :=
  (splitOnChar c s.data).map (fun l => ⟨l⟩)

/-- Whether `p` is a prefix of `s` (Python `str.startswith`). -/
def isPre (p s : List Char) : Bool :=
  match p, s with
  | [], _ => true
  | _ :: _, [] => false
  | a :: ps, b :: ss => a = b && isPre ps ss

/-- Parse an integer literal (optional sign, digits), modelling the
fragment of Python `int(str)` the code relies on. -/
def parseIntStr (s : String) : Option ℤ :=
  let t := pyStrip s
  let (sign, ds) : ℤ × List Char :=
    match t.data with
    | '-' :: rest => (-1, rest)
    | '+' :: rest => (1, rest)
    | l => (1, l)
  if ds.isEmpty then none
  else if ds.all Char.isDigit then
    some (sign * ((ds.foldl (fun acc c => acc * 10 + (c.toNat - '0'.toNat))
      (0 : ℕ) : ℕ) : ℤ))
  else none

/-- Parse a decimal literal (optional sign, digits, optional fractional
part), modelling the fragment of Python `float(str)` the code relies on. -/
def parseDecimal (s : String) : Option ℚ :=
  let t := (pyStrip s).data
  let (sign, digitsPart) : ℚ × List Char :=
    match t with
    | '-' :: rest => (-1, rest)
    | '+' :: rest => (1, rest)
    | _ => (1, t)
  let rec go (cs : List Char) (acc : ℚ) (seenDigit : Bool) (seenDot : Bool)
      (scale : ℚ) : Option ℚ :=
    match cs with
    | [] => if seenDigit then some acc else none
    | c :: rest =>
        if c.isDigit then
          let d : ℚ := (c.toNat - '0'.toNat : ℕ)
          if seenDot then go rest (acc + d * scale) true true (scale / 10)
          else go rest (acc * 10 + d) true false scale
        else if c = '.' && !seenDot then go rest acc seenDigit true (1 / 10)
        else none
  (go digitsPart 0 false false 1).map (sign * ·)

/-- Python `float(x)` on a JSON value (`TypeError`/`ValueError` ↦ `none`;
note `float(True) = 1.0`). -/
def pyFloat : Json → Option ℚ
  | .num q => some q
  | .bool b => some (if b then 1 else 0)
  | .str s => parseDecimal s
  | _ => none

/-- Python `int(x)` on a JSON value (truncation toward zero for numbers,
string parse for strings; anything else raises, modelled by `none`). -/
def pyInt : Json → Option ℤ
  | .num q => some (if q ≥ 0 then ⌊q⌋ else ⌈q⌉)
  | .bool b => some (if b then 1 else 0)
  | .str s => parseIntStr s
  | _ => none

/-! ## Operation Router (`_detect_method`, `_normalize_operation`,
`_normalize_list_filters` and `OPERATION_ALIASES` in `siigo_tools.py`) -/

/-- The static per-resource operation alias table `OPERATION_ALIASES`. -/
def OPERATION_ALIASES : List (String × List (String × String)) :=
  [("facturas_venta", [("tipos_factura_venta", "tipos_factura")]),
   ("facturas_compra", [("tipos_factura_compra", "tipos_facturas")]),
   ("cuentas_por_pagar",
     [("consultar_por_proveedor", "por_proveedor"),
      ("consultar_por_fecha", "por_fecha")])]

/-- `_detect_method`: HTTP method from the operation name. -/
def detect_method (operacion : String) : String :=
  let op := pyLower operacion
  if isPre "crear".data op.data || op = "enviar_mail" then "POST"
  else if op = "editar" then "PUT"
  else if op = "eliminar" || op = "anular" then "DELETE"
  else "GET"

/-- `_normalize_operation`: per-resource operation alias resolution. -/
def normalize_operation (endpoint operacion : String) : String :=
  match OPERATION_ALIASES.lookup endpoint with
  | some aliases => (aliases.lookup operacion).getD operacion
  | none => operacion

/-- Endpoints whose list filters are keyed by document date. -/
def date_based : List String :=
  ["facturas_venta", "facturas_compra", "comprobantes_contables"]

/-- Endpoints whose list filters are keyed by creation date. -/
def created_based : List String :=
  ["clientes", "productos", "notas_credito", "cotizaciones",
   "recibos_caja", "recibos_pago"]

/-- One `if src in normalized and dst not in normalized:
normalized[dst] = normalized[src]` step of `_normalize_list_filters`. -/
def mirrorKey (d : Dict) (src dst : String) : Dict :=
  if dhas d src && !dhas d dst then dset d dst (dgetD d src .null) else d

/-- `_normalize_list_filters`: date-filter key aliasing for `listar`. -/
def normalize_list_filters (endpoint operacion : String) (params : Dict) :
    Dict :=
  if operacion ≠ "listar" then params
  else
    let n0 := params
    let n1 :=
      if endpoint ∈ date_based then
        mirrorKey (mirrorKey n0 "created_start" "date_start")
          "created_end" "date_end"
      else n0
    if endpoint ∈ created_based then
      mirrorKey (mirrorKey n1 "date_start" "created_start")
        "date_end" "created_end"
    else n1

/-! ## Domain Validator (`_validate_comprobante_payload`) -/

def msgItemNotObj (idx : ℕ) : String :=
  "items[" ++ toString idx ++ "] no es objeto"

def msgCodeMissing (idx : ℕ) : String :=
  "items[" ++ toString idx ++ "].account.code faltante"

def msgAccountMissing (idx : ℕ) : String :=
  "items[" ++ toString idx ++ "].account faltante"

def msgValueInvalid (idx : ℕ) : String :=
  "items[" ++ toString idx ++ "].value inválido"

def msgValuePositive (idx : ℕ) : String :=
  "items[" ++ toString idx ++ "].value debe ser mayor a 0"

def msgMovementInvalid (idx : ℕ) : String :=
  "items[" ++ toString idx ++ "].account.movement inválido (usar Debit/Credit)"

/-- Round half to even at two decimals, modelling Python `round(x, 2)`
(at exact-rational precision). -/
def roundHalfEven (q : ℚ) : ℤ :=
  let f := ⌊q⌋
  if q - f < 1/2 then f
  else if q - f > 1/2 then f + 1
  else if f % 2 = 0 then f else f + 1

def round2 (q : ℚ) : ℚ := (roundHalfEven (q * 100) : ℚ) / 100

/-- The `"Payload inválido"` error dict of `_validate_comprobante_payload`. -/
def notDictError : Json :=
  .obj [("error", .str "Payload inválido para crear comprobante contable"),
        ("detalle", .str "Debe enviar un objeto JSON con document, date e items."),
        ("status_code", .num 400)]

/-- The `"Faltan campos obligatorios"` error dict. -/
def missingFieldsError (missing : List String) : Json :=
  .obj [("error", .str "Faltan campos obligatorios para crear comprobante contable"),
        ("faltantes", .arr (missing.map Json.str)),
        ("status_code", .num 400),
        ("sugerencia", .arr [
          .str "Consultar tipos_comprobante con tipo=CC para obtener document.id.",
          .str "Consultar cuentas_contables para validar account.code.",
          .str "Asegurar items con account.movement (Debit/Credit) y value."])]

/-- The `"Items inválidos"` error dict. -/
def invalidItemsError (inv : List String) : Json :=
  .obj [("error", .str "Items inválidos en comprobante contable"),
        ("detalle", .arr (inv.map Json.str)),
        ("status_code", .num 400)]

/-- The `"Partida doble inválida"` error dict, carrying both totals. -/
def unbalancedError (d c : ℚ) : Json :=
  .obj [("error", .str "Partida doble inválida: Débitos y Créditos no cuadran"),
        ("totales", .obj [("debit", .num (round2 d)), ("credit", .num (round2 c))]),
        ("status_code", .num 400),
        ("sugerencia", .str "Ajusta items hasta que total Debit == total Credit.")]

/-- One iteration of the `for idx, item in enumerate(items, start=1)` loop
of `_validate_comprobante_payload`, threading
`(debit_total, credit_total, invalid_items)`. -/
def itemStep (acc : ℚ × ℚ × List String) (p : ℕ × Json) :
    ℚ × ℚ × List String :=
  let (d, c, inv) := acc
  let (idx, item) := p
  match item with
  | .obj kvs =>
      let (movement, inv1) :=
        match dget kvs "account" with
        | some (.obj akvs) =>
            let m := pyStrip (pyStr (dgetD akvs "movement" (.str "")))
            if pyTruthy (dgetD akvs "code" .null) then (m, inv)
            else (m, inv ++ [msgCodeMissing idx])
        | _ => ("", inv ++ [msgAccountMissing idx])
      match pyFloat (dgetD kvs "value" .null) with
      | none => (d, c, inv1 ++ [msgValueInvalid idx])
      | some v =>
          if v ≤ 0 then (d, c, inv1 ++ [msgValuePositive idx])
          else
            let ml := pyLower movement
            if ml = "debit" then (d + v, c, inv1)
            else if ml = "credit" then (d, c + v, inv1)
            else (d, c, inv1 ++ [msgMovementInvalid idx])
  | _ => (d, c, inv ++ [msgItemNotObj idx])

/-- The `missing_fields` list `_validate_comprobante_payload` accumulates
for the top-level structural checks (`document.id`, `date`, non-empty
`items`). -/
def missingFieldsOf (kvs : Dict) : List String :=
  (match dget kvs "document" with
   | some (.obj dkvs) =>
       if pyTruthy (dgetD dkvs "id" .null) then [] else ["document.id"]
   | _ => ["document.id"])
  ++ (if pyTruthy (dgetD kvs "date" .null) then [] else ["date"])
  ++ (match dget kvs "items" with
      | some (.arr xs) => if xs.isEmpty then ["items[]"] else []
      | _ => ["items[]"])

/-- The item list of a voucher payload (empty if absent or not a list; in
that case `missingFieldsOf` is non-empty and the validator returns before
looking at items). -/
def payloadItems (kvs : Dict) : List Json :=
  match dget kvs "items" with
  | some (.arr xs) => xs
  | _ => []

/-- The `(debit_total, credit_total, invalid_items)` triple after the
item loop of `_validate_comprobante_payload`. -/
def itemLoop (kvs : Dict) : ℚ × ℚ × List String :=
  ((payloadItems kvs).enumFrom 1).foldl itemStep (0, 0, [])

/-- The body of `_validate_comprobante_payload` for a dict payload:
top-level structural checks, the item loop, then the balance check. -/
def validateObjPayload (kvs : Dict) : Option Json :=
  if !(missingFieldsOf kvs).isEmpty then
    some (missingFieldsError (missingFieldsOf kvs))
  else if !(itemLoop kvs).2.2.isEmpty then
    some (invalidItemsError (itemLoop kvs).2.2)
  else if |(itemLoop kvs).1 - (itemLoop kvs).2.1| > 1/100 then
    some (unbalancedError (itemLoop kvs).1 (itemLoop kvs).2.1)
  else none

/-- `_validate_comprobante_payload`: `none` = valid, `some err` = the
error dict returned to the caller. -/
def validate_comprobante_payload (payload : Json) : Option Json :=
  match payload with
  | .obj kvs => validateObjPayload kvs
  | _ => some notDictError

/-! ### Derived per-item views used to state the validator claims -/

/-- The (stripped, lowercased) movement tag the loop classifies an item by. -/
def itemMovement (item : Json) : String :=
  match item with
  | .obj kvs =>
      match dget kvs "account" with
      | some (.obj akvs) =>
          pyLower (pyStrip (pyStr (dgetD akvs "movement" (.str ""))))
      | _ => ""
  | _ => ""

/-- The parsed numeric value of an item, if any. -/
def itemValue (item : Json) : Option ℚ :=
  match item with
  | .obj kvs => pyFloat (dgetD kvs "value" .null)
  | _ => none

/-- The amount one item contributes to the debit accumulator. -/
def itemDebit (item : Json) : ℚ :=
  if itemMovement item = "debit" then (itemValue item).getD 0 else 0

/-- The amount one item contributes to the credit accumulator. -/
def itemCredit (item : Json) : ℚ :=
  if itemMovement item = "credit" then (itemValue item).getD 0 else 0

/-- Debit total of an item list (for structurally valid items this is what
the validator's loop accumulates). -/
def debitTotal (items : List Json) : ℚ := (items.map itemDebit).sum

/-- Credit total of an item list. -/
def creditTotal (items : List Json) : ℚ := (items.map itemCredit).sum

/-- Structural validity of one voucher item: an `account` object with a
truthy `code`, a parseable strictly positive `value`, and a movement tag
equal (case-insensitively, stripped) to Debit or Credit. -/
def validItemB (item : Json) : Bool :=
  match item with
  | .obj kvs =>
      (match dget kvs "account" with
       | some (.obj akvs) => pyTruthy (dgetD akvs "code" .null)
       | _ => false)
      && (match pyFloat (dgetD kvs "value" .null) with
          | some v => decide (0 < v)
          | none => false)
      && (itemMovement item = "debit" || itemMovement item = "credit")
  | _ => false

/-- Top-level structural validity of a voucher payload: `document.id`
truthy, `date` truthy, `items` a non-empty list. -/
def topLevelValidB (kvs : Dict) : Bool :=
  (match dget kvs "document" with
   | some (.obj dkvs) => pyTruthy (dgetD dkvs "id" .null)
   | _ => false)
  && pyTruthy (dgetD kvs "date" .null)
  && (match dget kvs "items" with
      | some (.arr xs) => !xs.isEmpty
      | _ => false)

/-- The complete defect list one loop iteration appends for one item
(read off the loop body of `_validate_comprobante_payload`). -/
def itemDefects (idx : ℕ) (item : Json) : List String :=
  match item with
  | .obj kvs =>
      let (movement, acctMsgs) :=
        match dget kvs "account" with
        | some (.obj akvs) =>
            (pyStrip (pyStr (dgetD akvs "movement" (.str ""))),
             if pyTruthy (dgetD akvs "code" .null) then []
             else [msgCodeMissing idx])
        | _ => ("", [msgAccountMissing idx])
      let valMsgs :=
        match pyFloat (dgetD kvs "value" .null) with
        | none => [msgValueInvalid idx]
        | some v =>
            if v ≤ 0 then [msgValuePositive idx]
            else
              let ml := pyLower movement
              if ml = "debit" || ml = "credit" then []
              else [msgMovementInvalid idx]
      acctMsgs ++ valMsgs
  | _ => [msgItemNotObj idx]

/-! ## Field Projection Engine (`_filter_response_fields`) -/

/-- `_extract_nested_value`: dotted-path traversal. -/
def extractNestedValue (value : Json) (pathParts : List String) : Option Json :=
  match pathParts with
  | [] => some value
  | part :: rest =>
      match value with
      | .obj kvs =>
          match dget kvs part with
          | some v => extractNestedValue v rest
          | none => none
      | _ => none

/-- `_extract_field_with_aliases`: resolution order is (1) exact key,
(2) dotted path, (3) metadata timestamp aliases, (4) monetary aliases;
`none` models the `(None, False)` not-found outcome. -/
def extract_field_with_aliases (record : Dict) (field : String) : Option Json :=
  match dget record field with
  | some v => some v
  | none =>
      if strContainsChar field '.' then
        extractNestedValue (.obj record) (strSplitOnChar '.' field)
      else
        let viaCreated : Option Json :=
          if field = "created_at" then
            match dget record "metadata" with
            | some (.obj mkvs) =>
                match dget mkvs "created" with
                | some .null => none
                | some v => some v
                | none => none
            | _ => none
          else none
        match viaCreated with
        | some v => some v
        | none =>
            let viaUpdated : Option Json :=
              if field = "updated_at" || field = "last_updated" then
                match dget record "metadata" with
                | some (.obj mkvs) =>
                    match dget mkvs "last_updated" with
                    | some .null => none
                    | some v => some v
                    | none => none
                | _ => none
              else none
            match viaUpdated with
            | some v => some v
            | none =>
                if field = "value" || field = "total" then
                  match dget record "total" with
                  | some (.num q) => some (.num q)
                  | _ =>
                      let viaPayment : Option Json :=
                        match dget record "payment" with
                        | some (.obj pkvs) =>
                            match dget pkvs "value" with
                            | some (.num q) => some (.num q)
                            | _ => none
                        | _ => none
                      match viaPayment with
                      | some v => some v
                      | none =>
                          match dget record "items" with
                          | some (.arr its) =>
                              let vs := its.filterMap (fun it =>
                                match it with
                                | .obj ikvs =>
                                    match dget ikvs "value" with
                                    | some (.num q) => some q
                                    | _ => none
                                | _ => none)
                              if vs.isEmpty then none else some (.num vs.sum)
                          | _ => none
                else none

/-- One `if found: filtered[field] = value` step of `filter_record`. -/
def projStep (kvs : Dict) (acc : Dict) (f : String) : Dict :=
  match extract_field_with_aliases kvs f with
  | some v => dset acc f v
  | none => acc

/-- The dict built by `filter_record` for one object record. -/
def filterRecordD (campos : List String) (kvs : Dict) : Dict :=
  campos.foldl (projStep kvs) []

/-- `filter_record`: non-object records pass through unchanged. -/
def filter_record (campos : List String) (record : Json) : Json :=
  match record with
  | .obj kvs => .obj (filterRecordD campos kvs)
  | _ => record

/-- `_filter_response_fields`: envelope-aware projection. -/
def filter_response_fields (data : Json) (campos : List String) : Json :=
  match data with
  | .obj kvs =>
      if dhas kvs "data" then
        match dget kvs "data" with
        | some (.obj dkvs) =>
            if dhas dkvs "results" then
              let results :=
                match dget dkvs "results" with
                | some (.arr rs) => rs
                | _ => []
              let nested : Dict :=
                (match dget dkvs "pagination" with
                 | some p => [("pagination", p)]
                 | none => []) ++
                [("results", .arr (results.map (filter_record campos)))]
              .obj (dset kvs "data" (.obj nested))
            else .obj (dset kvs "data" (filter_record campos (.obj dkvs)))
        | some (.arr xs) =>
            .obj (dset kvs "data" (.arr (xs.map (filter_record campos))))
        | _ => .obj kvs
      else if dhas kvs "results" then
        let results :=
          match dget kvs "results" with
          | some (.arr rs) => rs
          | _ => []
        .obj ((match dget kvs "pagination" with
               | some p => [("pagination", p)]
               | none => []) ++
              [("results", .arr (results.map (filter_record campos)))])
      else filter_record campos (.obj kvs)
  | .arr xs => .arr (xs.map (filter_record campos))
  | _ => data

/-! ## Response Size Governor (`_to_response_str`)

The serializer below models the text shape of `json.dumps`; the separator
and number-rendering details are approximations, and the size bound proved
about `to_response_str` does not depend on them. Texts are `List Char`
(Python strings are character sequences and the bound is about `len`). -/

mutual

def dumpsV : Json → List Char
  | .null => "null".toList
  | .bool true => "true".toList
  | .bool false => "false".toList
  | .num q => (toString q).toList
  | .str s => '"' :: (s.toList ++ ['"'])
  | .arr xs => '[' :: (dumpsL xs ++ [']'])
  | .obj kvs => '\x7b' :: (dumpsO kvs ++ ['\x7d'])

def dumpsL : List Json → List Char
  | [] => []
  | [x] => dumpsV x
  | x :: y :: rest => dumpsV x ++ (", ".toList ++ dumpsL (y :: rest))

def dumpsO : List (String × Json) → List Char
  | [] => []
  | [(k, v)] => '"' :: (k.toList ++ ('"' :: (": ".toList ++ dumpsV v)))
  | (k, v) :: y :: rest =>
      ('"' :: (k.toList ++ ('"' :: (": ".toList ++ dumpsV v)))) ++
        (", ".toList ++ dumpsO (y :: rest))

end

/-- The truncation marker appended on hard truncation. -/
def truncMarker : List Char := "\n... (respuesta truncada)".toList

/-- The `_nota` text while records are being dropped. -/
def notaShowing (k : ℕ) (total : Json) : Json :=
  .str ("Mostrando " ++ toString k ++ " de " ++ pyStr total ++ " registros")

/-- The `_nota` text once a single record remains. -/
def notaShowingOne (total : Json) : Json :=
  .str ("Mostrando 1 de " ++ pyStr total ++
    " registros (use _campos para reducir tamaño o page_size más pequeño)")

/-- The `while len(results) > 1` record-dropping loop of
`_to_response_str`: `.inl` is the early `return test_str`, `.inr` the
records remaining when the loop exits. -/
def shrinkLoop (maxChars : ℕ) (pag : Json) (total : Json)
    (results : List Json) : List Char ⊕ List Json :=
  if _h : 1 < results.length then
    let test := Json.obj [("pagination", pag), ("results", .arr results),
                          ("_nota", notaShowing results.length total)]
    let ts := dumpsV test
    if ts.length ≤ maxChars then .inl ts
    else shrinkLoop maxChars pag total results.dropLast
  else .inr results
termination_by results.length
decreasing_by simp [List.length_dropLast]; omega

/-- `_to_response_str`: serialize, drop trailing records of a paged list
while too large, hard-truncate with a marker as a last resort. -/
def to_response_str (data : Json) (maxChars : ℕ) : List Char :=
  let s0 := dumpsV data
  if s0.length ≤ maxChars then s0
  else
    let s1 : List Char ⊕ List Char :=
      match data with
      | .obj kvs =>
          match dget kvs "results" with
          | some (.arr results) =>
              let pag := dgetD kvs "pagination" (.obj [])
              let pagD : Dict := match pag with | .obj pkvs => pkvs | _ => []
              let total := dgetD pagD "total_results" (.num results.length)
              match shrinkLoop maxChars pag total results with
              | .inl fitted => .inl fitted
              | .inr remaining =>
                  .inr (dumpsV (Json.obj
                    [("pagination", pag), ("results", .arr remaining),
                     ("_nota", notaShowingOne total)]))
          | _ => .inr s0
      | _ => .inr s0
    match s1 with
    | .inl fitted => fitted
    | .inr s => if s.length ≤ maxChars then s else s.take maxChars ++ truncMarker

/-! ## Remote CRUD Client outcome classification (`_call_siigo`) -/

/-- An HTTP response as seen by `_call_siigo`: the status code, the body
text, and the result of `resp.json()` (`none` = the parse raised). -/
structure HttpResp where
  status : ℕ
  bodyText : String
  jsonBody : Option Json

/-- `requests.Response.ok`: status below 400. -/
def respOk (r : HttpResp) : Bool := r.status < 400

/-- The body-handling and outcome-classification portion of `_call_siigo`
(transport succeeded and a response arrived): parse fallback, explicit
error for an empty body, reclassification of `listar` responses that are
an empty object under a success status. -/
def classify_call_response (endpoint operacion method : String)
    (resp : HttpResp) : Json :=
  let data0 :=
    match resp.jsonBody with
    | some d => d
    | none => .obj [("raw_response", .str resp.bodyText),
                    ("status_code", .num resp.status)]
  let data1 :=
    if pyStrip resp.bodyText = "" then
      if resp.status ≥ 400 then
        .obj [("error", .str ("HTTP " ++ toString resp.status ++
                 " desde Azure Function (respuesta vacía)")),
              ("status_code", .num resp.status)]
      else
        .obj [("error", .str "Azure Function respondió vacío"),
              ("status_code", .num resp.status)]
    else data0
  if method = "GET" && operacion = "listar"
      && (match data1 with | .obj [] => true | _ => false)
      && respOk resp then
    .obj [("error", .str "Azure Function devolvió objeto vacío en operación listar"),
          ("status_code", .num resp.status),
          ("endpoint", .str endpoint),
          ("operacion", .str operacion),
          ("sugerencia", .str "Revisar backend SIIGO/credenciales o intentar consulta puntual por ID/código.")]
  else data1

/-! ## Paginator and Tool Surface (`_execute_siigo_tool`)

`_call_siigo` is abstracted as a `backend : SiigoCall → Json` oracle; the
executor threads the list of issued calls explicitly so the "no network
request on invalid input" property is statable. The overall result is
`Option`: `none` models an uncaught Python exception (e.g. `int()` on a
malformed page number). -/

/-- One HTTP call issued through `_call_siigo`. -/
structure SiigoCall where
  endpoint : String
  operacion : String
  method : String
  query : Dict
  body : Option Json

/-- Result of `_extract_results_payload` on one page: a standard page
(results, pagination, wrapped-envelope flag), a non-standard response, or
a shape on which the Python code would raise. -/
inductive PagePayload where
  | std (results : List Json) (pagination : Dict) (wrapped : Bool)
  | nonstd
  | bad

/-- `_extract_results_payload` (local helper inside the `_todos` branch of
`_execute_siigo_tool`). -/
def extract_results_payload (rawPage : Json) : PagePayload :=
  match rawPage with
  | .obj kvs =>
      if dhas kvs "results" then
        match dget kvs "results", dget kvs "pagination" with
        | some (.arr rs), some (.obj p) => .std rs p false
        | some (.arr rs), none => .std rs [] false
        | _, _ => .bad
      else
        match dget kvs "data" with
        | some (.obj dkvs) =>
            if dhas dkvs "results" then
              match dget dkvs "results", dget dkvs "pagination" with
              | some (.arr rs), some (.obj p) => .std rs p true
              | some (.arr rs), none => .std rs [] true
              | _, _ => .bad
            else .nonstd
        | _ => .nonstd
  | _ => .nonstd

/-- The trailing `if campos and not isinstance(data, str)` field filter. -/
def applyCampos (campos : Option (List String)) (data : Json) : Json :=
  match campos with
  | some cs => if cs.isEmpty then data else filter_response_fields data cs
  | none => data

/-- Extraction of the `_campos` directive (list form, or comma-separated
string split and stripped); the key is always removed. -/
def extractCampos (params : Dict) : Option (List String) × Dict :=
  match dpop params "_campos" with
  | (some (.arr xs), p) =>
      (some (xs.filterMap (fun j => match j with
        | .str s => some s
        | _ => none)), p)
  | (some (.str s), p) => (some ((strSplitOnChar ',' s).map pyStrip), p)
  | (some _, p) => (none, p)
  | (none, p) => (none, p)

/-- The consolidated payload built after the pagination loop, re-wrapped
in the envelope shape the backend used. -/
def consolidatedPayload (allResults : List Json) (wrapped : Bool) : Json :=
  let inner := Json.obj
    [("pagination", .obj [("total_results", .num allResults.length),
                          ("page", .num 1),
                          ("page_size", .num allResults.length)]),
     ("results", .arr allResults)]
  if wrapped then .obj [("success", .bool true), ("data", inner)] else inner

/-- The `for _ in range(max_pages)` auto-pagination loop of
`_execute_siigo_tool`, returning the final (pre-serialization) data and
the calls issued. -/
def fetch_todos_loop (backend : SiigoCall → Json) (endpoint operacion : String)
    (campos : Option (List String)) (pageSize : ℤ) (params : Dict) (page : ℤ)
    (fuel : ℕ) (acc : List Json) (wrapped : Bool) (calls : List SiigoCall) :
    Option (Json × List SiigoCall) :=
  match fuel with
  | 0 => some (applyCampos campos (consolidatedPayload acc wrapped), calls)
  | fuel' + 1 =>
      let params' := dset params "page" (.str (toString page))
      let call : SiigoCall := ⟨endpoint, operacion, "GET", params', none⟩
      let pageData := backend call
      let calls' := calls ++ [call]
      if (match pageData with | .obj kvs => dhas kvs "error" | _ => false) then
        some (pageData, calls')
      else
        match extract_results_payload pageData with
        | .bad => none
        | .nonstd => some (applyCampos campos pageData, calls')
        | .std results pagination pageWrapped =>
            let wrapped' := wrapped || pageWrapped
            let acc' := acc ++ results
            let total := dgetD pagination "total_results" (.num 0)
            let stopByTotal : Option Bool :=
              if pyTruthy total then
                match total with
                | .num t => some (decide ((acc'.length : ℚ) ≥ t))
                | _ => none
              else some false
            match stopByTotal with
            | none => none
            | some stop =>
                if stop || (results.length : ℤ) < pageSize then
                  some (applyCampos campos (consolidatedPayload acc' wrapped'),
                        calls')
                else
                  fetch_todos_loop backend endpoint operacion campos pageSize
                    params' (page + 1) fuel' acc' wrapped' calls'

/-- The keys moved from the body to the query string for POST/PUT. -/
def specialQueryKeys : List String :=
  ["id", "nombre", "identificacion", "codigo", "nombre_factura"]

/-- One `if key in body: query_params[key] = body.pop(key)` step. -/
def splitStep (qb : Dict × Dict) (key : String) : Dict × Dict :=
  let (q, b) := qb
  match dpop b key with
  | (some v, b') => (dset q key v, b')
  | (none, _) => (q, b)

/-- The `for key in [...]: if key in body: query_params[key] = body.pop(key)`
split of POST/PUT parameters. -/
def splitQueryBody (params : Dict) : Dict × Dict :=
  specialQueryKeys.foldl splitStep ([], params)

/-- The `"JSON de parametros es inválido"` error dict. -/
def parseErrorJson : Json :=
  .obj [("error", .str "El JSON de parametros es inválido"),
        ("detalle", .str "Asegúrate de enviar un objeto JSON válido en formato string."),
        ("status_code", .num 400)]

/-- The `"Operación no soportada"` error dict for `notas_credito`/`editar`. -/
def notasEditError : Json :=
  .obj [("error", .str "Operación no soportada por backend"),
        ("detalle", .str "notas_credito solo permite operaciones GET y POST; no existe editar."),
        ("status_code", .num 405),
        ("sugerencia", .str "Crea una nueva nota crédito o realiza ajustes desde Siigo Web.")]

/-- The dispatch portion of `_execute_siigo_tool` (after alias/method
resolution and extraction of the `_campos`/`_todos` directives):
capability guard, voucher pre-flight validation, and the method branches.
`detect_method operacion` is the single `method` value the source
computes up front. -/
def execDispatch (backend : SiigoCall → Json) (endpoint operacion : String)
    (campos : Option (List String)) (paginarTodo : Bool) (params : Dict) :
    Option (Json × List SiigoCall) :=
  if endpoint = "notas_credito" && operacion = "editar" then
    some (notasEditError, [])
  else
    match (if endpoint = "comprobantes_contables" && operacion = "crear"
           then validate_comprobante_payload (.obj params) else none) with
    | some err => some (err, [])
    | none =>
        if detect_method operacion = "POST" || detect_method operacion = "PUT" then
          some (applyCampos campos
              (backend ⟨endpoint, operacion, detect_method operacion,
                (splitQueryBody params).1,
                some (.obj (splitQueryBody params).2)⟩),
            [⟨endpoint, operacion, detect_method operacion,
              (splitQueryBody params).1,
              some (.obj (splitQueryBody params).2)⟩])
        else if detect_method operacion = "DELETE" then
          some (applyCampos campos
              (backend ⟨endpoint, operacion, detect_method operacion,
                params, none⟩),
            [⟨endpoint, operacion, detect_method operacion, params, none⟩])
        else if paginarTodo then
          match pyInt (dgetD params "page" (.num 1)),
                pyInt (dgetD params "page_size" (.num 25)) with
          | some page, some pageSize =>
              fetch_todos_loop backend endpoint operacion campos pageSize
                (dset params "page_size" (.str (toString pageSize))) page
                20 [] false []
          | _, _ => none
        else
          some (applyCampos campos
              (backend ⟨endpoint, operacion, detect_method operacion,
                params, none⟩),
            [⟨endpoint, operacion, detect_method operacion, params, none⟩])

/-- `_execute_siigo_tool`, from the parsed parameter dict to the final
(pre-serialization) data and the list of backend calls issued: operation
alias resolution, list-filter aliasing, the `_parse_error` early return,
extraction of `_campos` and `_todos`, then `execDispatch`. -/
def execute_siigo_tool_core (backend : SiigoCall → Json)
    (endpoint operacion0 : String) (params0 : Dict) :
    Option (Json × List SiigoCall) :=
  if dhas (normalize_list_filters endpoint (normalize_operation endpoint operacion0)
      params0) "_parse_error" then
    some (parseErrorJson, [])
  else
    execDispatch backend endpoint (normalize_operation endpoint operacion0)
      (extractCampos (normalize_list_filters endpoint
        (normalize_operation endpoint operacion0) params0)).1
      (pyTruthy (((dpop (extractCampos (normalize_list_filters endpoint
        (normalize_operation endpoint operacion0) params0)).2 "_todos").1).getD
        (.bool false)))
      (dpop (extractCampos (normalize_list_filters endpoint
        (normalize_operation endpoint operacion0) params0)).2 "_todos").2

/-! ## Conversation/Thread Manager deletion (`main.delete_thread`,
`siigo_agent.reset_siigo_thread`, `db.delete_conversation`) -/

/-- The in-process and durable state `delete_thread` touches: the keys of
the in-memory `threads` map, the keys of the sub-agent `_siigo_threads`
map, whether `db._pool` is set, and the durable conversation rows. -/
structure AppState where
  threads : List String
  siigoThreads : List String
  dbPool : Bool
  dbConversations : List String

/-- `reset_siigo_thread`: drop the sub-agent thread handle for one id. -/
def reset_siigo_thread (st : AppState) (threadId : String) : AppState :=
  { st with siigoThreads := st.siigoThreads.filter (· ≠ threadId) }

/-- `db.delete_conversation`: cascade delete of the conversation row,
reporting whether a row existed. -/
def db_delete_conversation (st : AppState) (threadId : String) :
    Bool × AppState :=
  (st.dbConversations.contains threadId,
   { st with dbConversations := st.dbConversations.filter (· ≠ threadId) })

/-- Outcome of the `DELETE /threads/...` handler. -/
inductive DeleteOutcome where
  | ok (msg : String)
  | notFound
deriving DecidableEq

/-- `main.delete_thread`: remove the in-memory handle, cascade to the
sub-agent handle, delete the durable record, report deletion if either
in-memory or durable state existed. -/
def delete_thread (st : AppState) (threadId : String) :
    DeleteOutcome × AppState :=
  let (deletedMem, st1) :=
    if st.threads.contains threadId then
      (true, { st with threads := st.threads.filter (· ≠ threadId) })
    else (false, st)
  let st2 := reset_siigo_thread st1 threadId
  let (deletedDb, st3) :=
    if st2.dbPool then db_delete_conversation st2 threadId else (false, st2)
  if deletedMem || deletedDb then
    (.ok ("Thread " ++ threadId ++ " eliminado"), st3)
  else (.notFound, st3)

/-! ## Small derived views used in claim statements -/

/-- Whether a returned JSON value carries an `error` field. -/
def jsonHasError : Json → Bool
  | .obj kvs => dhas kvs "error"
  | _ => false

/-- Concatenation of the per-item defect lists over an enumerated item
list (the defect set a non-short-circuiting pass collects). -/
def allDefects : List (ℕ × Json) → List String
  | [] => []
  | p :: rest => itemDefects p.1 p.2 ++ allDefects rest

/-! ## Concrete fixtures used by witnesses -/

/-- Scenario A debit item: account 110505, movement Debit, value 100000. -/
def vItemD : Json :=
  .obj [("account", .obj [("code", .str "110505"), ("movement", .str "Debit")]),
        ("value", .num 100000)]

/-- Scenario A credit item: account 233525, movement Credit, value 100000. -/
def vItemC : Json :=
  .obj [("account", .obj [("code", .str "233525"), ("movement", .str "Credit")]),
        ("value", .num 100000)]

/-- Scenario A balanced voucher payload. -/
def vPayloadBal : Dict :=
  [("document", .obj [("id", .num 123)]), ("date", .str "2024-06-15"),
   ("items", .arr [vItemD, vItemC])]

/-- A defective item with no account object but a valid value (yields
two defects: missing account and invalid movement). -/
def vBadItem1 : Json := .obj [("value", .num 5)]

/-- A defective item with a fine account but a non-numeric value. -/
def vBadItem2 : Json :=
  .obj [("account", .obj [("code", .str "2"), ("movement", .str "Credit")]),
        ("value", .str "zz")]

/-- A voucher payload whose two items are both defective. -/
def vBadPayload : Dict :=
  [("document", .obj [("id", .num 123)]), ("date", .str "x"),
   ("items", .arr [vBadItem1, vBadItem2])]

/-! ## Dictionary lemmas -/

theorem dkeys_nil : dkeys ([] : Dict) = [] := rfl

theorem dkeys_cons (k : String) (v : Json) (rest : Dict) :
    dkeys ((k, v) :: rest) = k :: dkeys rest := rfl

theorem dget_eq_none_iff (d : Dict) (k : String) :
    dget d k = none ↔ k ∉ dkeys d := by
  induction d with
  | nil => simp [dget, dkeys_nil]
  | cons kv rest ih =>
      obtain ⟨k', v'⟩ := kv
      by_cases h : k' = k
      · subst h; simp [dget, dkeys_cons]
      · simp [dget, dkeys_cons, h, ih, Ne.symm h]

theorem dhas_iff_mem (d : Dict) (k : String) :
    dhas d k = true ↔ k ∈ dkeys d := by
  unfold dhas
  rcases hg : dget d k with _ | v <;> simp
  · exact (dget_eq_none_iff d k).mp hg
  · by_contra hmem
    rw [(dget_eq_none_iff d k).mpr hmem] at hg
    simp at hg

theorem dget_dset_self (d : Dict) (k : String) (v : Json) :
    dget (dset d k v) k = some v := by
  induction d with
  | nil => simp [dset, dget]
  | cons kv rest ih =>
      obtain ⟨k', v'⟩ := kv
      by_cases h : k' = k <;> simp [dset, dget, h, ih]

theorem dget_dset_ne (d : Dict) (k : String) (v : Json) (k'' : String)
    (h : k'' ≠ k) : dget (dset d k v) k'' = dget d k'' := by
  induction d with
  | nil => simp [dset, dget, Ne.symm h]
  | cons kv rest ih =>
      obtain ⟨k', v'⟩ := kv
      by_cases hk : k' = k
      · subst hk; simp [dset, dget, Ne.symm h]
      · simp only [dset, if_neg hk, dget]
        by_cases hk2 : k' = k'' <;> simp [hk2, ih]

theorem mem_dkeys_dset (d : Dict) (k : String) (v : Json) (k'' : String) :
    k'' ∈ dkeys (dset d k v) ↔ k'' ∈ dkeys d ∨ k'' = k := by
  induction d with
  | nil => simp [dset, dkeys_cons, dkeys_nil]
  | cons kv rest ih =>
      obtain ⟨k', v'⟩ := kv
      by_cases h : k' = k <;>
        simp [dset, h, dkeys_cons, ih, List.mem_cons] <;> tauto

theorem dpop_fst (d : Dict) (k : String) : (dpop d k).1 = dget d k := by
  induction d with
  | nil => simp [dpop, dget]
  | cons kv rest ih =>
      obtain ⟨k', v'⟩ := kv
      by_cases h : k' = k <;> simp [dpop, dget, h, ih]

theorem dget_dpop_ne (d : Dict) (k k'' : String) (h : k'' ≠ k) :
    dget (dpop d k).2 k'' = dget d k'' := by
  induction d with
  | nil => simp [dpop, dget]
  | cons kv rest ih =>
      obtain ⟨k', v'⟩ := kv
      by_cases hk : k' = k
      · subst hk; simp [dpop, dget, Ne.symm h]
      · simp only [dpop, if_neg hk, dget]
        by_cases hk2 : k' = k'' <;> simp [hk2, ih]

theorem dkeys_dpop (d : Dict) (k : String) :
    dkeys (dpop d k).2 = (dkeys d).erase k := by
  induction d with
  | nil => simp [dpop, dkeys_nil]
  | cons kv rest ih =>
      obtain ⟨k', v'⟩ := kv
      by_cases h : k' = k <;>
        simp [dpop, h, dkeys_cons, ih, List.erase_cons]

theorem dget_dpop_self (d : Dict) (k : String) (hnd : (dkeys d).Nodup) :
    dget (dpop d k).2 k = none := by
  induction d with
  | nil => simp [dpop, dget]
  | cons kv rest ih =>
      obtain ⟨k', v'⟩ := kv
      simp only [dkeys, List.map_cons, List.nodup_cons] at hnd
      by_cases h : k' = k
      · subst h
        simp only [dpop, if_pos rfl]
        exact (dget_eq_none_iff rest k').mpr hnd.1
      · simp only [dpop, if_neg h, dget, if_neg h]
        exact ih hnd.2

theorem dpop_of_not_has (d : Dict) (k : String) (h : dhas d k = false) :
    dpop d k = (none, d) := by
  induction d with
  | nil => simp [dpop]
  | cons kv rest ih =>
      obtain ⟨k', v'⟩ := kv
      simp only [dhas, dget] at h ih
      by_cases hk : k' = k
      · simp [hk] at h
      · simp only [if_neg hk] at h
        simp [dpop, if_neg hk, ih h]

/-! ## C9: thread deletion -/

/-- C9: with a live database pool, the thread delete operation reports a
successful deletion whenever the in-memory handle or the durable
conversation record existed (in particular when only the durable record
exists), reports not-found only when neither existed, and always removes
the sub-agent thread handle keyed by the same threadId. -/
theorem delete_thread_spec (st : AppState) (tid : String)
    (hpool : st.dbPool = true) :
    ((st.threads.contains tid || st.dbConversations.contains tid) = true →
       (delete_thread st tid).1 =
         DeleteOutcome.ok ("Thread " ++ tid ++ " eliminado"))
    ∧ ((delete_thread st tid).1 = DeleteOutcome.notFound →
       st.threads.contains tid = false ∧
         st.dbConversations.contains tid = false)
    ∧ tid ∉ (delete_thread st tid).2.siigoThreads := by
  by_cases hm : st.threads.contains tid = true <;>
    by_cases hd : st.dbConversations.contains tid = true <;>
    simp_all [delete_thread, reset_siigo_thread, db_delete_conversation,
      List.mem_filter]

/-- C9 witness: a threadId with no in-memory handle but an existing
durable conversation still reports successful deletion. -/
theorem delete_thread_spec_witness :
    (delete_thread ⟨[], ["t1"], true, ["t1"]⟩ "t1").1 =
      DeleteOutcome.ok ("Thread " ++ "t1" ++ " eliminado") :=
  (delete_thread_spec ⟨[], ["t1"], true, ["t1"]⟩ "t1" rfl).1 (by decide)

/-! ## C3: listing responses that are empty objects or empty bodies -/

/-- C3: for a `listar` GET whose HTTP response has a success status but
whose parsed body is the empty JSON object, the classified outcome
carries an `error` field (never an empty result set); likewise any
response whose body text is empty is classified as an error. -/
theorem listar_empty_object_is_error (endpoint : String) (resp : HttpResp) :
    (respOk resp = true → resp.jsonBody = some (Json.obj []) →
       jsonHasError (classify_call_response endpoint "listar" "GET" resp) = true)
    ∧ (pyStrip resp.bodyText = "" →
       jsonHasError (classify_call_response endpoint "listar" "GET" resp) = true) := by
  constructor
  · intro hok hjson
    have hlt : resp.status < 400 := by simpa [respOk] using hok
    unfold classify_call_response
    rw [hjson]
    by_cases hbt : pyStrip resp.bodyText = ""
    · simp [hbt, Nat.not_le.mpr hlt, jsonHasError, dhas, dget]
    · simp [hbt, respOk, hlt, jsonHasError, dhas, dget]
  · intro hbt
    unfold classify_call_response
    by_cases hge : resp.status ≥ 400 <;>
      simp [hbt, hge, jsonHasError, dhas, dget]

/-- C3 witness: HTTP 200 with parsed body `\x7b\x7d` and with an empty
body text, both classified as errors. -/
theorem listar_empty_object_is_error_witness :
    jsonHasError (classify_call_response "clientes" "listar" "GET"
        ⟨200, "(vacio)", some (Json.obj [])⟩) = true
    ∧ jsonHasError (classify_call_response "clientes" "listar" "GET"
        ⟨200, "", none⟩) = true :=
  ⟨(listar_empty_object_is_error "clientes" ⟨200, "(vacio)", some (Json.obj [])⟩).1
      (by decide) rfl,
   (listar_empty_object_is_error "clientes" ⟨200, "", none⟩).2 (by decide)⟩

/-! ## C7: date-filter key aliasing -/

/-- C7 counterexample: on `facturas_venta` (a resource with date-filter
aliasing) a supplied `date_start` is NOT mirrored into `created_start`:
the params pass through unchanged, so mirroring does not hold in both
directions. -/
theorem date_filter_no_reverse_mirroring :
    normalize_list_filters "facturas_venta" "listar"
        [("date_start", Json.str "2024-01-01")] =
      [("date_start", Json.str "2024-01-01")]
    ∧ dhas (normalize_list_filters "facturas_venta" "listar"
        [("date_start", Json.str "2024-01-01")]) "created_start" = false := by
  constructor <;> rfl

theorem dget_mirrorKey_filled (d : Dict) (src dst : String)
    (hs : dhas d src = true) (hd : dhas d dst = false) :
    dget (mirrorKey d src dst) dst = dget d src := by
  rcases hv : dget d src with _ | v
  · simp [dhas, hv] at hs
  · simp only [mirrorKey, hs, hd, Bool.not_false, Bool.and_self, if_true]
    rw [dget_dset_self, dgetD, hv, Option.getD_some]

theorem dget_mirrorKey_ne (d : Dict) (src dst k : String) (h : k ≠ dst) :
    dget (mirrorKey d src dst) k = dget d k := by
  unfold mirrorKey
  split
  · exact dget_dset_ne d dst _ k h
  · rfl

theorem dhas_mirrorKey_ne (d : Dict) (src dst k : String) (h : k ≠ dst) :
    dhas (mirrorKey d src dst) k = dhas d k := by
  unfold dhas
  rw [dget_mirrorKey_ne d src dst k h]

/-- C7 amended: date-filter aliasing is one-directional per resource
family. For document-date resources a supplied `created_start`/
`created_end` is mirrored into the absent `date_start`/`date_end` (and a
missing `created_*` key is never filled from `date_*`); for
creation-date resources a supplied `date_start`/`date_end` is mirrored
into the absent `created_start`/`created_end` (and a missing `date_*`
key is never filled from `created_*`). -/
theorem normalize_filters_one_directional (endpoint : String) (params : Dict) :
    (endpoint ∈ date_based →
      (dhas params "created_start" = true → dhas params "date_start" = false →
        dget (normalize_list_filters endpoint "listar" params) "date_start" =
          dget params "created_start")
      ∧ (dhas params "created_end" = true → dhas params "date_end" = false →
        dget (normalize_list_filters endpoint "listar" params) "date_end" =
          dget params "created_end")
      ∧ (dhas params "created_start" = false →
        dhas (normalize_list_filters endpoint "listar" params) "created_start" =
          false))
    ∧ (endpoint ∈ created_based →
      (dhas params "date_start" = true → dhas params "created_start" = false →
        dget (normalize_list_filters endpoint "listar" params) "created_start" =
          dget params "date_start")
      ∧ (dhas params "date_end" = true → dhas params "created_end" = false →
        dget (normalize_list_filters endpoint "listar" params) "created_end" =
          dget params "date_end")
      ∧ (dhas params "date_start" = false →
        dhas (normalize_list_filters endpoint "listar" params) "date_start" =
          false)) := by
  constructor
  · intro hdb
    have hncb : endpoint ∉ created_based := by
      fin_cases hdb <;> decide
    have hnorm : normalize_list_filters endpoint "listar" params =
        mirrorKey (mirrorKey params "created_start" "date_start")
          "created_end" "date_end" := by
      simp [normalize_list_filters, hdb, hncb]
    refine ⟨?_, ?_, ?_⟩
    · intro hs hd
      rw [hnorm, dget_mirrorKey_ne _ _ _ _ (by decide),
        dget_mirrorKey_filled _ _ _ hs hd]
    · intro hs hd
      rw [hnorm, dget_mirrorKey_filled]
      · exact dget_mirrorKey_ne _ _ _ _ (by decide)
      · rw [dhas_mirrorKey_ne _ _ _ _ (by decide)]; exact hs
      · rw [dhas_mirrorKey_ne _ _ _ _ (by decide)]; exact hd
    · intro hs
      rw [hnorm, dhas_mirrorKey_ne _ _ _ _ (by decide),
        dhas_mirrorKey_ne _ _ _ _ (by decide)]
      exact hs
  · intro hcb
    have hndb : endpoint ∉ date_based := by
      fin_cases hcb <;> decide
    have hnorm : normalize_list_filters endpoint "listar" params =
        mirrorKey (mirrorKey params "date_start" "created_start")
          "date_end" "created_end" := by
      simp [normalize_list_filters, hndb, hcb]
    refine ⟨?_, ?_, ?_⟩
    · intro hs hd
      rw [hnorm, dget_mirrorKey_ne _ _ _ _ (by decide),
        dget_mirrorKey_filled _ _ _ hs hd]
    · intro hs hd
      rw [hnorm, dget_mirrorKey_filled]
      · exact dget_mirrorKey_ne _ _ _ _ (by decide)
      · rw [dhas_mirrorKey_ne _ _ _ _ (by decide)]; exact hs
      · rw [dhas_mirrorKey_ne _ _ _ _ (by decide)]; exact hd
    · intro hs
      rw [hnorm, dhas_mirrorKey_ne _ _ _ _ (by decide),
        dhas_mirrorKey_ne _ _ _ _ (by decide)]
      exact hs

/-- C7 amended witness: `created_start` supplied on `facturas_venta` is
mirrored into `date_start`; `date_start` supplied on `clientes` is
mirrored into `created_start`. -/
theorem normalize_filters_one_directional_witness :
    dget (normalize_list_filters "facturas_venta" "listar"
        [("created_start", Json.str "2026-02-02")]) "date_start" =
      dget [("created_start", Json.str "2026-02-02")] "created_start"
    ∧ dget (normalize_list_filters "clientes" "listar"
        [("date_start", Json.str "2026-02-02")]) "created_start" =
      dget [("date_start", Json.str "2026-02-02")] "date_start" :=
  ⟨((normalize_filters_one_directional "facturas_venta"
      [("created_start", Json.str "2026-02-02")]).1 (by decide)).1
      (by decide) (by decide),
   ((normalize_filters_one_directional "clientes"
      [("date_start", Json.str "2026-02-02")]).2 (by decide)).1
      (by decide) (by decide)⟩

/-! ## C10: POST/PUT query/body split -/

theorem splitStep_fold_spec (ks : List String) (q b : Dict)
    (hnd : (dkeys b).Nodup) (hks : ks.Nodup) :
    (∀ k, k ∈ ks → dget (ks.foldl splitStep (q, b)).2 k = none)
    ∧ (∀ k, k ∉ ks → dget (ks.foldl splitStep (q, b)).2 k = dget b k)
    ∧ (∀ k, k ∈ ks → dget (ks.foldl splitStep (q, b)).1 k =
        if dhas b k then dget b k else dget q k)
    ∧ (∀ k, k ∉ ks → dget (ks.foldl splitStep (q, b)).1 k = dget q k) := by
  induction ks generalizing q b with
  | nil => simp
  | cons k0 ks ih =>
      simp only [List.nodup_cons] at hks
      obtain ⟨hk0, hksnd⟩ := hks
      simp only [List.foldl_cons]
      by_cases h0 : dhas b k0 = true
      · rcases hv : dget b k0 with _ | v
        · rw [dhas, hv] at h0; simp at h0
        · rcases hpop : dpop b k0 with ⟨r, b'⟩
          have hr : r = some v := by
            have := dpop_fst b k0
            rw [hpop, hv] at this; exact this
          subst hr
          have hstep : splitStep (q, b) k0 = (dset q k0 v, b') := by
            simp [splitStep, hpop]
          have hb'k0 : dget b' k0 = none := by
            have := dget_dpop_self b k0 hnd
            rw [hpop] at this; exact this
          have hb'ne : ∀ k, k ≠ k0 → dget b' k = dget b k := by
            intro k hk
            have := dget_dpop_ne b k0 k hk
            rw [hpop] at this; exact this
          have hnd' : (dkeys b').Nodup := by
            have := dkeys_dpop b k0
            rw [hpop] at this
            rw [this]
            exact hnd.erase k0
          rw [hstep]
          obtain ⟨ih1, ih2, ih3, ih4⟩ := ih (dset q k0 v) b' hnd' hksnd
          refine ⟨?_, ?_, ?_, ?_⟩
          · intro k hk
            rcases List.mem_cons.mp hk with rfl | hk
            · rw [ih2 k hk0, hb'k0]
            · exact ih1 k hk
          · intro k hk
            simp only [List.mem_cons, not_or] at hk
            rw [ih2 k hk.2, hb'ne k hk.1]
          · intro k hk
            rcases List.mem_cons.mp hk with rfl | hk
            · rw [ih4 k hk0, dget_dset_self, h0, if_pos rfl, hv]
            · have hne : k ≠ k0 := fun he => hk0 (he ▸ hk)
              rw [ih3 k hk, hb'ne k hne, dget_dset_ne q k0 v k hne,
                dhas, hb'ne k hne]
              rfl
          · intro k hk
            simp only [List.mem_cons, not_or] at hk
            rw [ih4 k hk.2, dget_dset_ne q k0 v k hk.1]
      · have hpop : dpop b k0 = (none, b) :=
          dpop_of_not_has b k0 (by simpa using h0)
        have hstep : splitStep (q, b) k0 = (q, b) := by
          simp [splitStep, hpop]
        rw [hstep]
        obtain ⟨ih1, ih2, ih3, ih4⟩ := ih q b hnd hksnd
        refine ⟨?_, ?_, ?_, ?_⟩
        · intro k hk
          rcases List.mem_cons.mp hk with rfl | hk
          · rw [ih2 k hk0]
            rw [dhas] at h0
            rcases hg : dget b k with _ | w
            · rfl
            · rw [hg] at h0; simp at h0
          · exact ih1 k hk
        · intro k hk
          simp only [List.mem_cons, not_or] at hk
          exact ih2 k hk.2
        · intro k hk
          rcases List.mem_cons.mp hk with rfl | hk
          · rw [ih4 k hk0, eq_false_of_ne_true h0, if_neg (by simp)]
          · exact ih3 k hk
        · intro k hk
          simp only [List.mem_cons, not_or] at hk
          exact ih4 k hk.2

theorem normalize_list_filters_ne_listar (endpoint operacion : String)
    (params : Dict) (h : operacion ≠ "listar") :
    normalize_list_filters endpoint operacion params = params := by
  simp [normalize_list_filters, h]

/-- C10: for a POST or PUT tool invocation, the keys id, nombre,
identificacion, codigo and nombre_factura, when present in the parsed
parameters, are removed from the JSON body and sent as query parameters,
while every other parameter key remains in the body; the single call
issued carries exactly that query/body split. -/
theorem post_put_special_keys_split (backend : SiigoCall → Json)
    (endpoint operacion : String) (params : Dict)
    (hnd : (dkeys params).Nodup)
    (hnorm : normalize_operation endpoint operacion = operacion)
    (hm : detect_method operacion = "POST" ∨ detect_method operacion = "PUT")
    (hlist : operacion ≠ "listar")
    (hng : ¬(endpoint = "notas_credito" ∧ operacion = "editar"))
    (hnc : ¬(endpoint = "comprobantes_contables" ∧ operacion = "crear"))
    (hpe : dhas params "_parse_error" = false)
    (hcampos : dhas params "_campos" = false)
    (htodos : dhas params "_todos" = false) :
    execute_siigo_tool_core backend endpoint operacion params =
      some (backend ⟨endpoint, operacion, detect_method operacion,
              (splitQueryBody params).1, some (.obj (splitQueryBody params).2)⟩,
            [⟨endpoint, operacion, detect_method operacion,
              (splitQueryBody params).1, some (.obj (splitQueryBody params).2)⟩])
    ∧ (∀ k, k ∈ specialQueryKeys →
        dget (splitQueryBody params).2 k = none
        ∧ (dhas params k = true →
            dget (splitQueryBody params).1 k = dget params k))
    ∧ (∀ k, k ∉ specialQueryKeys →
        dget (splitQueryBody params).2 k = dget params k
        ∧ dget (splitQueryBody params).1 k = none) := by
  obtain ⟨s1, s2, s3, s4⟩ :=
    splitStep_fold_spec specialQueryKeys [] params hnd (by decide)
  refine ⟨?_, ?_, ?_⟩
  · have hec : extractCampos params = (none, params) := by
      unfold extractCampos
      rw [dpop_of_not_has params "_campos" hcampos]
    have het : dpop params "_todos" = (none, params) :=
      dpop_of_not_has params "_todos" htodos
    have hngb : (endpoint = "notas_credito" && operacion = "editar") = false := by
      by_cases h1 : endpoint = "notas_credito" <;>
        by_cases h2 : operacion = "editar" <;> simp [h1, h2] at hng ⊢
    have hncb : (endpoint = "comprobantes_contables" && operacion = "crear")
        = false := by
      by_cases h1 : endpoint = "comprobantes_contables" <;>
        by_cases h2 : operacion = "crear" <;> simp [h1, h2] at hnc ⊢
    have hmb : (detect_method operacion = "POST"
        || detect_method operacion = "PUT") = true := by
      rcases hm with h | h <;> simp [h]
    unfold execute_siigo_tool_core
    rw [hnorm, normalize_list_filters_ne_listar endpoint operacion params hlist,
      hpe, hec, het]
    simp only [Bool.false_eq_true, if_false, Option.getD_none]
    unfold execDispatch
    rw [hngb, hncb, hmb]
    simp [applyCampos, pyTruthy]
  · intro k hk
    exact ⟨s1 k hk, fun hh => by rw [splitQueryBody, s3 k hk, if_pos hh]⟩
  · intro k hk
    exact ⟨by rw [splitQueryBody, s2 k hk], by rw [splitQueryBody, s4 k hk]; rfl⟩

/-- C10 witness: an edit invocation with an id and a name: the id moves
to the query string, the name stays in the body. -/
theorem post_put_special_keys_split_witness :
    (execute_siigo_tool_core (fun _ => Json.null) "clientes" "editar"
        [("id", Json.str "12345"), ("name", Json.str "X")] =
      some (Json.null,
            [⟨"clientes", "editar", "PUT",
              [("id", Json.str "12345")], some (.obj [("name", Json.str "X")])⟩]))
    ∧ dget (splitQueryBody
        [("id", Json.str "12345"), ("name", Json.str "X")]).2 "id" = none
    ∧ dget (splitQueryBody
        [("id", Json.str "12345"), ("name", Json.str "X")]).1 "name" = none := by
  have h := post_put_special_keys_split (fun _ => Json.null) "clientes" "editar"
    [("id", Json.str "12345"), ("name", Json.str "X")]
    (by decide) (by decide) (Or.inr (by decide)) (by decide)
    (by simp) (by simp) (by decide) (by decide) (by decide)
  refine ⟨?_, ?_, ?_⟩
  · have := h.1
    rw [this]
    rfl
  · exact (h.2.1 "id" (by decide)).1
  · exact (h.2.2 "name" (by decide)).2

/-! ## C5: field projection never invents keys, omits unresolved fields -/

theorem projStep_fold_keys (kvs : Dict) (campos : List String) :
    ∀ (acc : Dict) (k : String),
      k ∈ dkeys (campos.foldl (projStep kvs) acc) →
      k ∈ dkeys acc ∨ k ∈ campos := by
  induction campos with
  | nil => intro acc k hk; exact Or.inl hk
  | cons f cs ih =>
      intro acc k hk
      rw [List.foldl_cons] at hk
      rcases ih (projStep kvs acc f) k hk with h | h
      · unfold projStep at h
        rcases hf : extract_field_with_aliases kvs f with _ | v
        · rw [hf] at h; exact Or.inl h
        · rw [hf] at h
          rcases (mem_dkeys_dset acc f v k).mp h with h' | rfl
          · exact Or.inl h'
          · exact Or.inr (List.mem_cons_self _ _)
      · exact Or.inr (List.mem_cons_of_mem f h)

theorem projStep_fold_unresolved (kvs : Dict) (campos : List String) :
    ∀ (acc : Dict) (f : String),
      extract_field_with_aliases kvs f = none → f ∉ dkeys acc →
      f ∉ dkeys (campos.foldl (projStep kvs) acc) := by
  induction campos with
  | nil => intro acc f _ hacc; exact hacc
  | cons f0 cs ih =>
      intro acc f hf hacc
      rw [List.foldl_cons]
      refine ih (projStep kvs acc f0) f hf ?_
      unfold projStep
      rcases hf0 : extract_field_with_aliases kvs f0 with _ | v
      · exact hacc
      · intro hmem
        rcases (mem_dkeys_dset acc f0 v f).mp hmem with h' | rfl
        · exact hacc h'
        · simp [hf] at hf0

/-- C5: every key of the projected record is a member of the requested
field specification, and a requested field that resolves by none of
exact key, dotted path, or the alias table is silently omitted from the
projected record (the projection is total — it never errors). -/
theorem project_keys_spec (campos : List String) (kvs : Dict) :
    (∀ k, k ∈ dkeys (filterRecordD campos kvs) → k ∈ campos)
    ∧ (∀ f, extract_field_with_aliases kvs f = none →
        f ∉ dkeys (filterRecordD campos kvs)) := by
  constructor
  · intro k hk
    rcases projStep_fold_keys kvs campos [] k hk with h | h
    · simp [dkeys_nil] at h
    · exact h
  · intro f hf
    exact projStep_fold_unresolved kvs campos [] f hf (by simp [dkeys_nil])

/-- C5 witness: requesting `created_at`, `total` and an unresolvable
`nope` on a record with only nested metadata and line items: keys stay
inside the request and `nope` is omitted. -/
theorem project_keys_spec_witness :
    (∀ k, k ∈ dkeys (filterRecordD ["created_at", "total", "nope"]
        [("metadata", Json.obj [("created", Json.str "2024-01-01")]),
         ("items", Json.arr [Json.obj [("value", Json.num 50)],
                             Json.obj [("value", Json.num 50)]])]) →
      k ∈ ["created_at", "total", "nope"])
    ∧ "nope" ∉ dkeys (filterRecordD ["created_at", "total", "nope"]
        [("metadata", Json.obj [("created", Json.str "2024-01-01")]),
         ("items", Json.arr [Json.obj [("value", Json.num 50)],
                             Json.obj [("value", Json.num 50)]])]) :=
  ⟨(project_keys_spec ["created_at", "total", "nope"]
      [("metadata", Json.obj [("created", Json.str "2024-01-01")]),
       ("items", Json.arr [Json.obj [("value", Json.num 50)],
                           Json.obj [("value", Json.num 50)]])]).1,
   (project_keys_spec ["created_at", "total", "nope"]
      [("metadata", Json.obj [("created", Json.str "2024-01-01")]),
       ("items", Json.arr [Json.obj [("value", Json.num 50)],
                           Json.obj [("value", Json.num 50)]])]).2 "nope" rfl⟩

/-! ## C1 and C8: the voucher validator -/

theorem itemStep_third (d c : ℚ) (inv : List String) (i : ℕ) (it : Json) :
    (itemStep (d, c, inv) (i, it)).2.2 = inv ++ itemDefects i it := by
  cases it <;> simp only [itemStep, itemDefects] <;> try rfl
  repeat' split
  all_goals simp_all [List.append_assoc]

theorem foldl_itemStep_inv (ps : List (ℕ × Json)) :
    ∀ (d c : ℚ) (inv : List String),
      (ps.foldl itemStep (d, c, inv)).2.2 = inv ++ allDefects ps := by
  induction ps with
  | nil => intro d c inv; simp [allDefects]
  | cons p ps ih =>
      intro d c inv
      obtain ⟨i, it⟩ := p
      rcases hstep : itemStep (d, c, inv) (i, it) with ⟨d', c', inv'⟩
      have h3 : inv' = inv ++ itemDefects i it := by
        have := itemStep_third d c inv i it
        rw [hstep] at this; exact this
      rw [List.foldl_cons, hstep, ih d' c' inv', h3, allDefects,
        List.append_assoc]

theorem itemStep_valid (d c : ℚ) (inv : List String) (i : ℕ) (it : Json)
    (hv : validItemB it = true) :
    itemStep (d, c, inv) (i, it) = (d + itemDebit it, c + itemCredit it, inv) := by
  cases it <;> simp only [validItemB] at hv <;> try simp at hv
  simp only [itemStep, itemDebit, itemCredit, itemMovement, itemValue] at *
  repeat' split at hv
  all_goals try simp_all [not_le]
  all_goals
    obtain ⟨⟨hcode, hpos⟩, hmov⟩ := hv
  all_goals rcases hmov with hd | hc <;> simp_all [not_le]

theorem foldl_itemStep_valid (ps : List (ℕ × Json)) :
    ∀ (d c : ℚ) (inv : List String),
      (∀ p ∈ ps, validItemB p.2 = true) →
      ps.foldl itemStep (d, c, inv) =
        (d + ((ps.map (fun p => itemDebit p.2)).sum),
         c + ((ps.map (fun p => itemCredit p.2)).sum), inv) := by
  induction ps with
  | nil => intro d c inv _; simp
  | cons p ps ih =>
      intro d c inv hall
      obtain ⟨i, it⟩ := p
      rw [List.foldl_cons,
        itemStep_valid d c inv i it (hall (i, it) (List.mem_cons_self _ _)),
        ih _ _ _ (fun q hq => hall q (List.mem_cons_of_mem _ hq))]
      simp [add_assoc]

theorem missingFieldsOf_eq_nil (kvs : Dict) (htop : topLevelValidB kvs = true) :
    missingFieldsOf kvs = [] := by
  unfold topLevelValidB at htop
  unfold missingFieldsOf
  repeat' split at htop
  all_goals simp_all

/-- C1: on a voucher payload that is structurally valid (document id,
date, a non-empty item list, and every item carrying an account code, a
Debit/Credit movement tag and a strictly positive numeric value), the
validator returns `none` exactly when the debit and credit totals agree
within the 0.01 epsilon; beyond the epsilon it returns the
`unbalancedError` dict, which carries both computed totals (its
`totales` field holds the rounded debit and credit sums). -/
theorem validate_balanced_iff (kvs : Dict)
    (htop : topLevelValidB kvs = true)
    (hitems : ∀ it ∈ payloadItems kvs, validItemB it = true) :
    (validate_comprobante_payload (.obj kvs) = none ↔
      |debitTotal (payloadItems kvs) - creditTotal (payloadItems kvs)| ≤ 1/100)
    ∧ (1/100 <
        |debitTotal (payloadItems kvs) - creditTotal (payloadItems kvs)| →
      validate_comprobante_payload (.obj kvs) =
        some (unbalancedError (debitTotal (payloadItems kvs))
          (creditTotal (payloadItems kvs)))) := by
  have hvalid : ∀ p ∈ (payloadItems kvs).enumFrom 1, validItemB p.2 = true :=
    fun p hp => hitems p.2 (List.snd_mem_of_mem_enumFrom hp)
  have hloop : itemLoop kvs =
      (debitTotal (payloadItems kvs), creditTotal (payloadItems kvs), []) := by
    unfold itemLoop debitTotal creditTotal
    rw [foldl_itemStep_valid _ 0 0 [] hvalid]
    have hd : ((payloadItems kvs).enumFrom 1).map (fun p => itemDebit p.2) =
        (payloadItems kvs).map itemDebit := by
      rw [show (fun p : ℕ × Json => itemDebit p.2) = itemDebit ∘ Prod.snd
        from rfl, ← List.map_map, List.enumFrom_map_snd]
    have hc : ((payloadItems kvs).enumFrom 1).map (fun p => itemCredit p.2) =
        (payloadItems kvs).map itemCredit := by
      rw [show (fun p : ℕ × Json => itemCredit p.2) = itemCredit ∘ Prod.snd
        from rfl, ← List.map_map, List.enumFrom_map_snd]
    rw [hd, hc, zero_add, zero_add]
  have hred : validate_comprobante_payload (.obj kvs) =
      if |debitTotal (payloadItems kvs) - creditTotal (payloadItems kvs)|
          > 1/100 then
        some (unbalancedError (debitTotal (payloadItems kvs))
          (creditTotal (payloadItems kvs)))
      else none := by
    show validateObjPayload kvs = _
    unfold validateObjPayload
    rw [missingFieldsOf_eq_nil kvs htop, hloop]
    simp
  constructor
  · rw [hred]
    by_cases h : |debitTotal (payloadItems kvs) -
        creditTotal (payloadItems kvs)| > 1/100
    · simp [h, not_le.mpr h]
    · simp [h, not_lt.mp h]
  · intro h
    rw [hred, if_pos h]

/-- C1 witness: scenario A — a structurally valid two-item voucher with
debit 100000 and credit 100000 validates to `none` by the theorem. -/
theorem validate_balanced_iff_witness :
    validate_comprobante_payload (.obj vPayloadBal) = none := by
  have hmd : itemMovement vItemD = "debit" := by decide
  have hmc : itemMovement vItemC = "credit" := by decide
  have h1 : itemDebit vItemD = 100000 := by
    simp [itemDebit, hmd, (by decide : itemValue vItemD = some 100000)]
  have h1c : itemCredit vItemD = 0 := by simp [itemCredit, hmd]
  have h2 : itemCredit vItemC = 100000 := by
    simp [itemCredit, hmc, (by decide : itemValue vItemC = some 100000)]
  have h2d : itemDebit vItemC = 0 := by simp [itemDebit, hmc]
  have hpl : payloadItems vPayloadBal = [vItemD, vItemC] := rfl
  have hD : debitTotal (payloadItems vPayloadBal) = 100000 := by
    simp [debitTotal, hpl, h1, h2d]
  have hC : creditTotal (payloadItems vPayloadBal) = 100000 := by
    simp [creditTotal, hpl, h1c, h2]
  exact ((validate_balanced_iff vPayloadBal (by decide) (by decide)).1).mpr
    (by rw [hD, hC]; norm_num)

/-- C8 counterexample: an item whose movement tag is outside
Debit/Credit AND whose value is non-positive yields only the value
defect — the movement defect is skipped because the loop moves to the
next item right after a value violation, so the returned error does not
list the complete set of defects. -/
theorem movement_defect_skipped :
    validate_comprobante_payload (.obj
      [("document", Json.obj [("id", Json.num 123)]), ("date", Json.str "x"),
       ("items", Json.arr [.obj
         [("account", Json.obj [("code", Json.str "1"),
            ("movement", Json.str "Bogus")]),
          ("value", Json.num (-5))]])]) =
      some (invalidItemsError [msgValuePositive 1])
    ∧ itemMovement (.obj
        [("account", Json.obj [("code", Json.str "1"),
           ("movement", Json.str "Bogus")]),
         ("value", Json.num (-5))]) ≠ "debit"
    ∧ itemMovement (.obj
        [("account", Json.obj [("code", Json.str "1"),
           ("movement", Json.str "Bogus")]),
         ("value", Json.num (-5))]) ≠ "credit"
    ∧ msgMovementInvalid 1 ∉ [msgValuePositive 1] := by
  refine ⟨rfl, by decide, by decide, by decide⟩

/-- C8 amended: the validator collects defects across all items without
short-circuiting across items — when any defect exists, the error lists
exactly the concatenation of the per-item defect lists, and an item can
contribute several defects; but within one item a non-numeric or
non-positive value ends that item's checks, skipping its movement-tag
check (see the counterexample). -/
theorem validate_collects_per_item_defects (kvs : Dict)
    (htop : topLevelValidB kvs = true)
    (hbad : allDefects ((payloadItems kvs).enumFrom 1) ≠ []) :
    validate_comprobante_payload (.obj kvs) =
      some (invalidItemsError (allDefects ((payloadItems kvs).enumFrom 1))) := by
  have hloop3 : (itemLoop kvs).2.2 =
      allDefects ((payloadItems kvs).enumFrom 1) := by
    unfold itemLoop
    rw [foldl_itemStep_inv]
    simp
  show validateObjPayload kvs = _
  unfold validateObjPayload
  rw [missingFieldsOf_eq_nil kvs htop, hloop3]
  simp only [List.isEmpty_nil, Bool.not_false, Bool.not_true, if_true]
  rw [if_neg (by simp [hbad]), if_pos (by simp [List.isEmpty_iff, hbad])]

/-- C8 amended witness: a payload with a fully missing account in item 1
(two defects collected for that item) and a non-numeric value in item 2:
all three defects across both items are reported in one pass. -/
theorem validate_collects_per_item_defects_witness :
    validate_comprobante_payload (.obj vBadPayload) =
      some (invalidItemsError (allDefects ((payloadItems vBadPayload).enumFrom 1)))
    ∧ allDefects ((payloadItems vBadPayload).enumFrom 1) =
        [msgAccountMissing 1, msgMovementInvalid 1, msgValueInvalid 2] :=
  ⟨validate_collects_per_item_defects vBadPayload (by decide) (by decide),
   by decide⟩

/-- C2: a `comprobantes_contables`/`crear` invocation whose parameters
fail the pre-flight validation returns the validation error and issues
zero backend calls. -/
theorem invalid_voucher_no_network (backend : SiigoCall → Json)
    (params : Dict) (err : Json)
    (hpe : dhas params "_parse_error" = false)
    (hval : validate_comprobante_payload
        (.obj (dpop (extractCampos params).2 "_todos").2) = some err) :
    execute_siigo_tool_core backend "comprobantes_contables" "crear" params =
      some (err, []) := by
  have hn : normalize_operation "comprobantes_contables" "crear" = "crear" := rfl
  have hl : normalize_list_filters "comprobantes_contables" "crear" params =
      params := normalize_list_filters_ne_listar _ _ _ (by decide)
  unfold execute_siigo_tool_core
  rw [hn, hl, hpe]
  simp only [Bool.false_eq_true, if_false]
  unfold execDispatch
  rw [if_neg (by decide : ¬ ((("comprobantes_contables" : String) = "notas_credito")
        && (("crear" : String) = "editar")) = true),
    if_pos (by decide : ((("comprobantes_contables" : String) = "comprobantes_contables")
        && (("crear" : String) = "crear")) = true),
    hval]

/-- C2 witness: an empty parameter dict (missing document, date and
items) is rejected with the missing-fields error and zero backend calls
(the backend oracle is never consulted). -/
theorem invalid_voucher_no_network_witness :
    execute_siigo_tool_core (fun _ => Json.null) "comprobantes_contables"
        "crear" [] =
      some (missingFieldsError ["document.id", "date", "items[]"], []) :=
  invalid_voucher_no_network (fun _ => Json.null) [] _ (by decide) rfl

/-- C4: the auto-pagination loop requests successive pages with the
fixed page size, accumulates records in arrival order, and stops on a
short page: with pageSize 25 and pages of 25, 25 and 10 records it
returns exactly the 60 records in order and issues exactly three calls
(pages 1, 2, 3). -/
theorem fetch_todos_three_pages
    (backend : SiigoCall → Json) (endpoint operacion : String) (params : Dict)
    (r1 r2 r3 : List Json)
    (h1len : r1.length = 25) (h2len : r2.length = 25) (h3len : r3.length = 10)
    (h1 : backend ⟨endpoint, operacion, "GET",
        dset params "page" (.str (toString (1 : ℤ))), none⟩ =
      Json.obj [("results", .arr r1)])
    (h2 : backend ⟨endpoint, operacion, "GET",
        dset (dset params "page" (.str (toString (1 : ℤ)))) "page"
          (.str (toString (2 : ℤ))), none⟩ =
      Json.obj [("results", .arr r2)])
    (h3 : backend ⟨endpoint, operacion, "GET",
        dset (dset (dset params "page" (.str (toString (1 : ℤ)))) "page"
          (.str (toString (2 : ℤ)))) "page" (.str (toString (3 : ℤ))), none⟩ =
      Json.obj [("results", .arr r3)]) :
    (fetch_todos_loop backend endpoint operacion none 25 params 1 20 [] false [] =
      some (consolidatedPayload (r1 ++ r2 ++ r3) false,
        [⟨endpoint, operacion, "GET",
           dset params "page" (.str (toString (1 : ℤ))), none⟩,
         ⟨endpoint, operacion, "GET",
           dset (dset params "page" (.str (toString (1 : ℤ)))) "page"
             (.str (toString (2 : ℤ))), none⟩,
         ⟨endpoint, operacion, "GET",
           dset (dset (dset params "page" (.str (toString (1 : ℤ)))) "page"
             (.str (toString (2 : ℤ)))) "page" (.str (toString (3 : ℤ))), none⟩]))
    ∧ (r1 ++ r2 ++ r3).length = 60 := by
  constructor
  · rw [show (20 : ℕ) = 19 + 1 from rfl, fetch_todos_loop, h1]
    simp only [dhas, dget, extract_results_payload, pyTruthy, dgetD]
    simp [h1len]
    norm_num [dget]
    rw [show (19 : ℕ) = 18 + 1 from rfl, fetch_todos_loop, h2]
    simp only [dhas, dget, extract_results_payload, pyTruthy, dgetD]
    simp [h2len]
    norm_num [dget]
    rw [show (18 : ℕ) = 17 + 1 from rfl, fetch_todos_loop, h3]
    simp only [dhas, dget, extract_results_payload, pyTruthy, dgetD]
    simp [h3len, applyCampos]
    norm_num [dget, applyCampos]
  · simp [h1len, h2len, h3len]

/-- C4 witness: a concrete backend serving pages of 25, 25 and 10 null
records; the loop returns all 60 and stops after the third call. -/
theorem fetch_todos_three_pages_witness :
    (fetch_todos_loop
      (fun c => match dget c.query "page" with
        | some (.str "1") =>
            Json.obj [("results", .arr (List.replicate 25 Json.null))]
        | some (.str "2") =>
            Json.obj [("results", .arr (List.replicate 25 Json.null))]
        | some (.str "3") =>
            Json.obj [("results", .arr (List.replicate 10 Json.null))]
        | _ => Json.null)
      "clientes" "listar" none 25 [] 1 20 [] false [] =
      some (consolidatedPayload (List.replicate 25 Json.null ++
          List.replicate 25 Json.null ++ List.replicate 10 Json.null) false,
        [⟨"clientes", "listar", "GET",
           dset [] "page" (.str (toString (1 : ℤ))), none⟩,
         ⟨"clientes", "listar", "GET",
           dset (dset [] "page" (.str (toString (1 : ℤ)))) "page"
             (.str (toString (2 : ℤ))), none⟩,
         ⟨"clientes", "listar", "GET",
           dset (dset (dset [] "page" (.str (toString (1 : ℤ)))) "page"
             (.str (toString (2 : ℤ)))) "page" (.str (toString (3 : ℤ))), none⟩]))
    ∧ (List.replicate 25 Json.null ++ List.replicate 25 Json.null ++
        List.replicate 10 Json.null).length = 60 :=
  fetch_todos_three_pages _ "clientes" "listar" []
    (List.replicate 25 Json.null) (List.replicate 25 Json.null)
    (List.replicate 10 Json.null)
    (by simp) (by simp) (by simp) rfl rfl rfl

/-! ## C6: the response size governor never exceeds the budget -/

theorem shrinkLoop_inl_length_aux (m : ℕ) (p t : Json) :
    ∀ (n : ℕ) (rs : List Json), rs.length ≤ n → ∀ cs,
      shrinkLoop m p t rs = .inl cs → cs.length ≤ m := by
  intro n
  induction n with
  | zero =>
      intro rs hle cs h
      rw [shrinkLoop, dif_neg (by omega)] at h
      exact absurd h (by simp)
  | succ n ih =>
      intro rs hle cs h
      rw [shrinkLoop] at h
      by_cases h1 : 1 < rs.length
      · rw [dif_pos h1] at h
        dsimp only [] at h
        split at h
        · cases h
          assumption
        · exact ih rs.dropLast (by rw [List.length_dropLast]; omega) cs h
      · rw [dif_neg h1] at h
        exact absurd h (by simp)

theorem shrinkLoop_inl_length (m : ℕ) (p t : Json) (rs : List Json)
    (cs : List Char) (h : shrinkLoop m p t rs = .inl cs) : cs.length ≤ m :=
  shrinkLoop_inl_length_aux m p t rs.length rs le_rfl cs h

theorem trunc_branch_length (s : List Char) (m : ℕ) :
    (if s.length ≤ m then s else s.take m ++ truncMarker).length ≤
      m + truncMarker.length := by
  split
  · exact le_trans (by assumption) (Nat.le_add_right _ _)
  · rw [List.length_append, List.length_take]
    omega

/-- C6: for every JSON payload and every size budget, the length of the
text produced by the size governor never exceeds the budget plus the
fixed length of the truncation marker. -/
theorem to_response_str_length_le (data : Json) (maxChars : ℕ) :
    (to_response_str data maxChars).length ≤ maxChars + truncMarker.length := by
  unfold to_response_str
  by_cases h0 : (dumpsV data).length ≤ maxChars
  · rw [if_pos h0]
    exact le_trans h0 (Nat.le_add_right _ _)
  · rw [if_neg h0]
    rcases data with _ | b | q | s | xs | kvs <;>
      try exact trunc_branch_length _ _
    rcases hres : dget kvs "results" with _ | v
    · simp only [hres]
      exact trunc_branch_length _ _
    · rcases v with _ | b | q | s | rs | okvs <;> simp only [hres] <;>
        try exact trunc_branch_length _ _
      rcases hs : shrinkLoop maxChars (dgetD kvs "pagination" (.obj []))
          (dgetD (match dgetD kvs "pagination" (.obj []) with
            | .obj pkvs => pkvs
            | _ => []) "total_results" (.num rs.length)) rs with cs | remaining <;>
        simp only [hs]
      · exact le_trans (shrinkLoop_inl_length _ _ _ _ _ hs)
          (Nat.le_add_right _ _)
      · exact trunc_branch_length _ _

end Siigo